import Mathlib

/-!
Verification development for `HardwareDiagnosticTool/hardware_info.py`.

The Python source is shallowly embedded below.  Numbers that Python holds as
floats are modelled as exact rationals (`ℚ`); every byte count the tool
handles is far below the range where binary floating point and exact
arithmetic diverge beyond the two-decimal display rounding, and the division
steps in `get_size` are by 1024, a power of two, hence exact on floats.
Python's `str(int)` is modelled by `natRepr` (decimal rendering) and the
`"%.2f"` float format of a non-negative value by `fmt2` (round half to even
at two decimal places, which is the tie rule of float formatting).
The abstract OS-metrics providers (`psutil`, `GPUtil`, `platform`) are
modelled as explicit parameter structures; each inspector is a function of
its provider.
-/

/-- Character for a single decimal digit, as used in decimal rendering. -/
def digitChar (d : ℕ) : Char :=
  match d with
  | 0 => '0' | 1 => '1' | 2 => '2' | 3 => '3' | 4 => '4'
  | 5 => '5' | 6 => '6' | 7 => '7' | 8 => '8' | 9 => '9'
  | _ => '*'

/-- Digit list of `n` in base 10, most significant first; `[]` for `0`.
The first argument is structural fuel (any bound `≥ n` yields the digits). -/
def natReprAux : ℕ → ℕ → List Char
  | _, 0 => []
  | 0, _ + 1 => []
  | f + 1, n + 1 => natReprAux f ((n + 1) / 10) ++ [digitChar ((n + 1) % 10)]

/-- Decimal rendering of a natural number; models Python `str` on a
non-negative integer. -/
def natRepr (n : ℕ) : String :=
  if n = 0 then "0" else String.mk (natReprAux n n)

/-- Rendering of a rational; stands in for Python `str` on a float value
(`"7"` for integral values, `"-"` sign and `"num/den"` otherwise — the exact
shape of the fractional rendering is a modelling choice, no claim depends
on it). -/
def ratRepr (q : ℚ) : String :=
  (if q.num < 0 then "-" else "") ++ natRepr q.num.natAbs ++
    (if q.den = 1 then "" else "/" ++ natRepr q.den)

/-- Round a rational to the nearest integer, ties to even: the rounding rule
of Python's float formatting. -/
def rhe (q : ℚ) : ℤ :=
  let f := ⌊q⌋
  if q - f < 1 / 2 then f
  else if 1 / 2 < q - f then f + 1
  else if 2 ∣ f then f else f + 1

/-- Two-digit zero-padded rendering of `n < 100` (the fractional part of a
two-decimal rendering). -/
def pad2 (n : ℕ) : String :=
  if n < 10 then "0" ++ natRepr n else natRepr n

/-- Models Python `f"{q:.2f}"` for the non-negative values the tool formats:
round `q` to an integer number of hundredths (ties to even) and print it
with exactly two decimal places. -/
def fmt2 (q : ℚ) : String :=
  let n : ℕ := (rhe (100 * q)).toNat
  natRepr (n / 100) ++ "." ++ pad2 (n % 100)

/-- Suffix list `['', 'K', 'M', 'G', 'T', 'P']` iterated by `get_size`
(hardware_info.py line 12). -/
def units : List String := ["", "K", "M", "G", "T", "P"]

/-- Loop body of `get_size`: walk the suffix list, returning once the
remaining value drops below 1024, else divide by 1024 and continue; falling
off the end of the list returns Python `None` (modelled as `none`). -/
def get_size_loop : ℚ → List String → Option String
  | _, [] => none
  | b, u :: us => if b < 1024 then some (fmt2 b ++ u ++ "B") else get_size_loop (b / 1024) us

/-- Embedding of `get_size` (hardware_info.py lines 8–15): convert a byte
count to a human readable string, or `none` when the loop exhausts all six
suffixes without returning. -/
def get_size (b : ℚ) : Option String := get_size_loop b units

/-! Data model: Python values and ordered dictionaries. -/

/-- Value stored in a metric section: a string, an integer, Python `None`,
or a nested dictionary (the per-device groupings of the disk and GPU
sections). -/
inductive PyVal where
  | str (s : String)
  | int (n : ℤ)
  | pynone
  | dict (d : List (String × PyVal))

/-- Python ordered-dict assignment `d[k] = v`: replace the value in place
when the key is already present (keeping its position), else append the new
pair at the end. -/
def dictSet (d : List (String × PyVal)) (k : String) (v : PyVal) : List (String × PyVal) :=
  if d.any fun kv => kv.1 == k then d.map fun kv => if kv.1 = k then (k, v) else kv
  else d ++ [(k, v)]

/-- Python ordered-dict read `d[k]` (first matching key). -/
def dictGet (d : List (String × PyVal)) (k : String) : Option PyVal :=
  match d with
  | [] => none
  | kv :: t => if kv.1 = k then some kv.2 else dictGet t k

/-! Provider models: external collaborators (`platform`, `psutil`,
`GPUtil`) become explicit parameter structures. -/

/-- Fields read from `platform` by `get_system_info`. -/
structure PlatformInfo where
  system : String
  release : String
  version : String
  machine : String
  processor : String
  node : String

/-- Result of `psutil.cpu_freq()` when the platform supports it. -/
structure CpuFreq where
  current : ℚ
  max : ℚ

/-- Result of `psutil.virtual_memory()`. -/
structure VirtualMemory where
  total : ℕ
  available : ℕ
  used : ℕ
  percent : ℚ

/-- Result of `psutil.swap_memory()`. -/
structure SwapMemory where
  total : ℕ
  free : ℕ
  used : ℕ
  percent : ℚ

/-- One element of `psutil.disk_partitions()`. -/
structure DiskPartition where
  device : String
  mountpoint : String
  fstype : String

/-- Result of `psutil.disk_usage(mountpoint)` when the read succeeds. -/
structure DiskUsage where
  total : ℕ
  used : ℕ
  free : ℕ
  percent : ℚ

/-- Model of the `psutil` OS-metrics provider.  `cpu_percent` and
`cpu_percent_percpu` take the sampling interval passed by the caller
(`none` is Python's default `interval=None`, the non-blocking
since-last-call mode; `some s` is a blocking `s`-second sample), so the
interval each call site uses is observable in the theorems.
`disk_usage` may raise, modelled as `Except`. -/
structure Psutil where
  cpu_count_physical : Option ℕ
  cpu_count_logical : Option ℕ
  cpu_freq : Option CpuFreq
  cpu_percent : Option ℚ → ℚ
  cpu_percent_percpu : Option ℚ → List ℚ
  virtual_memory : VirtualMemory
  swap_memory : SwapMemory
  disk_partitions : List DiskPartition
  disk_usage : String → Except String DiskUsage

/-- One GPU as reported by `GPUtil.getGPUs()`; `load` is a fraction. -/
structure Gpu where
  name : String
  id : ℕ
  load : ℚ
  memoryFree : ℚ
  memoryUsed : ℚ
  memoryTotal : ℚ
  temperature : ℚ
  uuid : String

/-- The three ways the optional `GPUtil` facility can behave at the call
site: the import fails, `getGPUs()` raises, or enumeration succeeds. -/
inductive GpuFacility where
  | absent
  | failure (msg : String)
  | gpus (l : List Gpu)

/-! Embeddings of the inspectors. -/

/-- Python interpolation `f"{q}%"` of a float percentage. -/
def fmtPercent (q : ℚ) : String := ratRepr q ++ "%"

/-- Optional core count as stored in the CPU dict (`int` or `None`). -/
def optCount : Option ℕ → PyVal
  | some n => .int n
  | none => .pynone

/-- Size value as stored in the memory/disk dicts: the `get_size` string,
or Python `None` if `get_size` fell off its loop. -/
def sizeVal (n : ℕ) : PyVal :=
  match get_size (n : ℚ) with
  | some s => .str s
  | none => .pynone

/-- Embedding of `get_system_info` (hardware_info.py lines 17–27). -/
def get_system_info (pl : PlatformInfo) : List (String × PyVal) :=
  [("OS", .str (pl.system ++ " " ++ pl.release)),
   ("OS Version", .str pl.version),
   ("Machine", .str pl.machine),
   ("Processor", .str pl.processor),
   ("Hostname", .str pl.node)]

/-- The five-entry dict literal built first by `get_cpu_info`
(lines 34–40).  The aggregate usage call at line 39 is
`psutil.cpu_percent()` — no interval argument, hence Python's default
`interval=None`. -/
def cpuBase (p : Psutil) : List (String × PyVal) :=
  [("Physical Cores", optCount p.cpu_count_physical),
   ("Total Cores", optCount p.cpu_count_logical),
   ("Max Frequency", .str (match p.cpu_freq with
      | some f => fmt2 f.max ++ "Mhz"
      | none => "N/A")),
   ("Current Frequency", .str (match p.cpu_freq with
      | some f => fmt2 f.current ++ "Mhz"
      | none => "N/A")),
   ("CPU Usage", .str (fmtPercent (p.cpu_percent none)))]

/-- Embedding of `get_cpu_info` (lines 29–46): the base dict, then one
`cpu_info[f"Core {i} Usage"] = f"{percentage}%"` assignment per element of
`psutil.cpu_percent(percpu=True, interval=1)` (line 43). -/
def get_cpu_info (p : Psutil) : List (String × PyVal) :=
  (p.cpu_percent_percpu (some 1)).enum.foldl
    (fun d ip => dictSet d ("Core " ++ natRepr ip.1 ++ " Usage") (.str (fmtPercent ip.2)))
    (cpuBase p)

/-- Embedding of `get_memory_info` (lines 48–64). -/
def get_memory_info (p : Psutil) : List (String × PyVal) :=
  [("Total Memory", sizeVal p.virtual_memory.total),
   ("Available Memory", sizeVal p.virtual_memory.available),
   ("Used Memory", sizeVal p.virtual_memory.used),
   ("Memory Usage", .str (fmtPercent p.virtual_memory.percent)),
   ("Total Swap", sizeVal p.swap_memory.total),
   ("Free Swap", sizeVal p.swap_memory.free),
   ("Used Swap", sizeVal p.swap_memory.used),
   ("Swap Usage", .str (fmtPercent p.swap_memory.percent))]

/-- Per-partition dict built at lines 76–83. -/
def diskEntry (pt : DiskPartition) (u : DiskUsage) : PyVal :=
  .dict [("Mountpoint", .str pt.mountpoint),
         ("File System", .str pt.fstype),
         ("Total Size", sizeVal u.total),
         ("Used", sizeVal u.used),
         ("Free", sizeVal u.free),
         ("Usage", .str (fmtPercent u.percent))]

/-- Embedding of `get_disk_info` (lines 66–87): partitions whose usage read
raises are skipped by the `except Exception: continue`. -/
def get_disk_info (p : Psutil) : List (String × PyVal) :=
  p.disk_partitions.foldl
    (fun d pt =>
      match p.disk_usage pt.mountpoint with
      | Except.error _ => d
      | Except.ok u => dictSet d ("Device " ++ pt.device) (diskEntry pt u))
    []

/-- Status message at line 110. -/
def gpuUnavailableMsg : String :=
  "GPU information unavailable - GPUtil module not installed or supported"

/-- Per-GPU dict built at lines 98–107. -/
def gpuEntry (g : Gpu) : PyVal :=
  .dict [("Name", .str g.name),
         ("ID", .int g.id),
         ("Load", .str (fmtPercent (g.load * 100))),
         ("Free Memory", .str (ratRepr g.memoryFree ++ "MB")),
         ("Used Memory", .str (ratRepr g.memoryUsed ++ "MB")),
         ("Total Memory", .str (ratRepr g.memoryTotal ++ "MB")),
         ("Temperature", .str (ratRepr g.temperature ++ " °C")),
         ("UUID", .str g.uuid)]

/-- Embedding of `try_get_gpu_info` (lines 89–112): on `ImportError` a
single `"Status"` entry, on any other exception a single `"Error"` entry,
on success one `gpu_info[f"GPU {i}"]` assignment per enumerated GPU. -/
def try_get_gpu_info (gf : GpuFacility) : List (String × PyVal) :=
  match gf with
  | .absent => [("Status", .str gpuUnavailableMsg)]
  | .failure e => [("Error", .str ("Failed to get GPU information: " ++ e))]
  | .gpus l =>
      l.enum.foldl (fun d ig => dictSet d ("GPU " ++ natRepr ig.1) (gpuEntry ig.2)) []

/-! Renderer model. -/

/-- One unit of program output: a printed line, or a printed `tabulate`
grid, kept abstract as its headers plus its rows (`tabulate` is an abstract
external collaborator). -/
inductive Out where
  | line (s : String)
  | table (headers : List String) (rows : List (List PyVal))

/-- Model of `print(tabulate([[k, v] for k, v in d.items()], headers=['Property', 'Value'], tablefmt='grid'))`. -/
def tableOf (d : List (String × PyVal)) : Out :=
  .table ["Property", "Value"] (d.map fun kv => [PyVal.str kv.1, kv.2])

/-- Python `info.items()` on a nested value (every value it is applied to
in the source is a dict). -/
def pyItems : PyVal → List (String × PyVal)
  | .dict d => d
  | _ => []

/-- Python `d[key]` read through a nested value. -/
def pyDictGet (v : PyVal) (k : String) : Option PyVal := dictGet (pyItems v) k

/-- Per-device rendering of the disk and GPU groupings (lines 148–152 and
161–165): for each entry, a heading line with the device key followed by
its two-column sub-table. -/
def subTables (d : List (String × PyVal)) : List Out :=
  d.flatMap fun kv => [.line ("\n" ++ kv.1 ++ ":"), tableOf (pyItems kv.2)]

/-- Sentinel test at line 156: `isinstance(gpu_info, dict) and
len(gpu_info) == 1 and ("Status" in gpu_info or "Error" in gpu_info)`
(the `isinstance` conjunct is always true in the model). -/
def gpuSentinel (d : List (String × PyVal)) : Bool :=
  d.length == 1 && (d.any (fun kv => kv.1 == "Status") || d.any (fun kv => kv.1 == "Error"))

/-- Python `print` of a looked-up dict value (a string wherever reached). -/
def printVal : Option PyVal → String
  | some (.str s) => s
  | _ => ""

/-- Embedding of `main` (lines 114–165; the name `main` itself is
reserved by Lean) as the sequence of outputs
printed: title, timestamp, then the five sections; the disk section
prints one sub-table per device; the GPU section prints the sentinel
message when the line-156 test fires, else one sub-table per GPU. -/
def mainOut (pl : PlatformInfo) (ps : Psutil) (gf : GpuFacility) (now : String) : List Out :=
  [Out.line "\n=== Hardware Diagnostic Tool ===",
   Out.line ("Report generated on: " ++ now ++ "\n"),
   Out.line "\n--- System Information ---",
   tableOf (get_system_info pl),
   Out.line "\n--- CPU Information ---",
   tableOf (get_cpu_info ps),
   Out.line "\n--- Memory Information ---",
   tableOf (get_memory_info ps),
   Out.line "\n--- Disk Information ---"]
  ++ subTables (get_disk_info ps)
  ++ [Out.line "\n--- GPU Information ---"]
  ++ (if gpuSentinel (try_get_gpu_info gf) then
        [Out.line (printVal (dictGet (try_get_gpu_info gf)
          (if (try_get_gpu_info gf).any fun kv => kv.1 == "Status" then "Status" else "Error")))]
      else subTables (try_get_gpu_info gf))

/-! Spec-side combinators and claim-shaped predicates. -/

/-- Title and generation-timestamp lines of the report. -/
def titleLines (now : String) : List Out :=
  [.line "\n=== Hardware Diagnostic Tool ===",
   .line ("Report generated on: " ++ now ++ "\n")]

/-- One flat report section: its heading line and its two-column table. -/
def sectionLines (name : String) (d : List (String × PyVal)) : List Out :=
  [.line ("\n--- " ++ name ++ " Information ---"), tableOf d]

/-- Claim C4 as stated: the aggregate `"CPU Usage"` entry and all per-core
entries come from provider samples taken over the same fixed 1-second
interval. -/
def cpuSampledAtOneSecond : Prop :=
  ∀ p : Psutil,
    dictGet (get_cpu_info p) "CPU Usage" =
      some (.str (fmtPercent (p.cpu_percent (some 1)))) ∧
    (get_cpu_info p).drop 5 = (p.cpu_percent_percpu (some 1)).enum.map
      fun ip => ("Core " ++ natRepr ip.1 ++ " Usage", PyVal.str (fmtPercent ip.2))

/-- Whether `psutil.disk_usage` succeeds at a partition's mountpoint. -/
def usageReadable (p : Psutil) (pt : DiskPartition) : Bool :=
  match p.disk_usage pt.mountpoint with
  | Except.ok _ => true
  | Except.error _ => false

/-- Value stored by `get_disk_info` for a readable partition (the error arm
is unreachable on the partitions that survive the filter). -/
def diskVal (p : Psutil) (pt : DiskPartition) : PyVal :=
  match p.disk_usage pt.mountpoint with
  | Except.ok u => diskEntry pt u
  | Except.error _ => .dict []

/-- Claim C5 as stated: for every provider whose readable usages carry an
in-range percent, the disk report has exactly one entry per readable
partition (M of N), and every retained entry's `"Usage"` cell is an
in-range percentage. -/
def diskClaimC5 : Prop :=
  ∀ p : Psutil,
    (∀ m u, p.disk_usage m = Except.ok u → 0 ≤ u.percent ∧ u.percent ≤ 100) →
    (get_disk_info p).length =
      (p.disk_partitions.filter fun pt => usageReadable p pt).length ∧
    ∀ kv ∈ get_disk_info p, ∃ q : ℚ, 0 ≤ q ∧ q ≤ 100 ∧
      pyDictGet kv.2 "Usage" = some (.str (fmtPercent q))

/-- Claim C9 as stated: every run prints title and timestamp, then the five
sections in fixed order, each as a two-column table, the disk and GPU
sections as one sub-table per device — in particular the GPU section is
always rendered as per-device sub-tables. -/
def rendererClaimC9 : Prop :=
  ∀ (pl : PlatformInfo) (ps : Psutil) (gf : GpuFacility) (now : String),
    mainOut pl ps gf now =
      titleLines now ++ sectionLines "System" (get_system_info pl) ++
      sectionLines "CPU" (get_cpu_info ps) ++
      sectionLines "Memory" (get_memory_info ps) ++
      [Out.line "\n--- Disk Information ---"] ++ subTables (get_disk_info ps) ++
      [Out.line "\n--- GPU Information ---"] ++ subTables (try_get_gpu_info gf)

/-! Concrete fixtures for witnesses and counterexamples. -/

/-- Disk usage sample at 50 %. -/
def usageFix : DiskUsage := ⟨100, 50, 50, 50⟩

/-- Partition fixture. -/
def partFix1 : DiskPartition := ⟨"sda1", "/", "ext4"⟩

/-- Second partition fixture with the same device name as `partFix1` but a
different mountpoint. -/
def partFix2 : DiskPartition := ⟨"sda1", "/mnt", "ext4"⟩

/-- Provider whose `cpu_percent` answers 42 at interval 1 and 7 at any
other interval, exposing which interval the code passes. -/
def psFix : Psutil :=
  ⟨some 2, some 4, none, fun iv => if iv = some 1 then 42 else 7, fun _ => [],
   ⟨0, 0, 0, 0⟩, ⟨0, 0, 0, 0⟩, [], fun _ => Except.error "unreadable"⟩

/-- Provider with two readable partitions sharing one device name. -/
def pdup : Psutil :=
  ⟨none, none, none, fun _ => 0, fun _ => [],
   ⟨0, 0, 0, 0⟩, ⟨0, 0, 0, 0⟩, [partFix1, partFix2], fun _ => Except.ok usageFix⟩

/-- Provider with a single readable partition. -/
def pdisk : Psutil :=
  ⟨none, none, none, fun _ => 0, fun _ => [],
   ⟨0, 0, 0, 0⟩, ⟨0, 0, 0, 0⟩, [partFix1], fun _ => Except.ok usageFix⟩

/-- Provider with one logical core at 50 % over the 1-second sample. -/
def pcpu : Psutil :=
  ⟨some 1, some 1, none, fun _ => 0, fun _ => [50],
   ⟨0, 0, 0, 0⟩, ⟨0, 0, 0, 0⟩, [], fun _ => Except.error "unreadable"⟩

/-- GPU fixture at 50 % load. -/
def gpuFix : Gpu := ⟨"GeForce GTX", 0, 1 / 2, 1000, 24, 1024, 40, "GPU-uuid-0"⟩

/-- Platform fixture. -/
def platFix : PlatformInfo := ⟨"Linux", "6.1", "v6", "x86_64", "x86_64", "host"⟩

/-! Theorems. -/

/-! Correctness facts about the decimal rendering. -/

theorem natReprAux_eq_digits : ∀ f n : ℕ, n ≤ f →
    natReprAux f n = ((Nat.digits 10 n).map digitChar).reverse := by
  intro f
  induction f with
  | zero =>
    intro n hn
    interval_cases n
    simp [natReprAux]
  | succ f ih =>
    intro n hn
    match n with
    | 0 => simp [natReprAux]
    | m + 1 =>
      have hdiv : (m + 1) / 10 ≤ f := by
        have h1 : (m + 1) / 10 < m + 1 := Nat.div_lt_self (Nat.succ_pos m) (by norm_num)
        omega
      rw [natReprAux, ih _ hdiv, Nat.digits_def' (by norm_num : 1 < 10) (Nat.succ_pos m)]
      simp

theorem digitChar_injOn : ∀ a : ℕ, a < 10 → ∀ b : ℕ, b < 10 → digitChar a = digitChar b → a = b := by
  decide

theorem map_digitChar_inj : ∀ l₁ l₂ : List ℕ, (∀ x ∈ l₁, x < 10) → (∀ x ∈ l₂, x < 10) →
    l₁.map digitChar = l₂.map digitChar → l₁ = l₂ := by
  intro l₁
  induction l₁ with
  | nil => intro l₂ _ _ h; cases l₂ <;> simp_all
  | cons a t ih =>
    intro l₂ h₁ h₂ h
    cases l₂ with
    | nil => simp_all
    | cons b t' =>
      simp only [List.map_cons, List.cons.injEq] at h
      have ha : a = b :=
        digitChar_injOn a (h₁ a (by simp)) b (h₂ b (by simp)) h.1
      have ht : t = t' := ih t' (fun x hx => h₁ x (by simp [hx])) (fun x hx => h₂ x (by simp [hx])) h.2
      rw [ha, ht]

theorem natRepr_digits (n : ℕ) :
    natRepr n = if n = 0 then "0" else String.mk (((Nat.digits 10 n).map digitChar).reverse) := by
  rw [natRepr, natReprAux_eq_digits n n le_rfl]

theorem digits_map_eq_zero_list {k : ℕ} (hk : (Nat.digits 10 k).map digitChar = ['0']) :
    k = 0 := by
  have hlt : ∀ x ∈ Nat.digits 10 k, x < 10 := fun x hx => Nat.digits_lt_base (by norm_num) hx
  have hdig : Nat.digits 10 k = [0] := by
    cases hdigk : Nat.digits 10 k with
    | nil => rw [hdigk] at hk; simp at hk
    | cons x t =>
      rw [hdigk] at hk
      cases t with
      | nil =>
        simp only [List.map_cons, List.map_nil, List.cons.injEq, and_true] at hk
        have hx : x = 0 := digitChar_injOn x (hlt x (by rw [hdigk]; simp)) 0 (by norm_num) hk
        rw [hx]
      | cons y t' => simp at hk
  have hof := Nat.ofDigits_digits 10 k
  rw [hdig] at hof
  simpa [Nat.ofDigits] using hof.symm

theorem natRepr_injective : Function.Injective natRepr := by
  intro m n h
  rw [natRepr_digits, natRepr_digits] at h
  have hm10 : ∀ x ∈ Nat.digits 10 m, x < 10 := fun x hx => Nat.digits_lt_base (by norm_num) hx
  have hn10 : ∀ x ∈ Nat.digits 10 n, x < 10 := fun x hx => Nat.digits_lt_base (by norm_num) hx
  have h00 : ("0" : String) = String.mk ['0'] := rfl
  by_cases hm : m = 0 <;> by_cases hn : n = 0
  · rw [hm, hn]
  · rw [if_pos hm, if_neg hn, h00] at h
    have hdata : ['0'] = ((Nat.digits 10 n).map digitChar).reverse := congrArg String.data h
    have hmap : (Nat.digits 10 n).map digitChar = ['0'] := by
      have := congrArg List.reverse hdata
      simpa using this.symm
    exact absurd (digits_map_eq_zero_list hmap) hn
  · rw [if_neg hm, if_pos hn, h00] at h
    have hdata : ((Nat.digits 10 m).map digitChar).reverse = ['0'] := congrArg String.data h
    have hmap : (Nat.digits 10 m).map digitChar = ['0'] := by
      have := congrArg List.reverse hdata
      simpa using this
    exact absurd (digits_map_eq_zero_list hmap) hm
  · rw [if_neg hm, if_neg hn] at h
    have hdata : ((Nat.digits 10 m).map digitChar).reverse =
        ((Nat.digits 10 n).map digitChar).reverse := congrArg String.data h
    have hmap : (Nat.digits 10 m).map digitChar = (Nat.digits 10 n).map digitChar :=
      List.reverse_injective hdata
    have hdig : Nat.digits 10 m = Nat.digits 10 n :=
      map_digitChar_inj _ _ hm10 hn10 hmap
    calc m = Nat.ofDigits 10 (Nat.digits 10 m) := (Nat.ofDigits_digits 10 m).symm
    _ = Nat.ofDigits 10 (Nat.digits 10 n) := by rw [hdig]
    _ = n := Nat.ofDigits_digits 10 n

/-! Facts about round-half-to-even. -/

theorem abs_rhe_sub (q : ℚ) : |(rhe q : ℚ) - q| ≤ 1 / 2 := by
  have h1 : (⌊q⌋ : ℚ) ≤ q := Int.floor_le q
  have h2 : q < ⌊q⌋ + 1 := Int.lt_floor_add_one q
  rw [rhe]
  split_ifs <;> rw [abs_le] <;> constructor <;> push_cast <;> linarith

theorem rhe_nonneg {q : ℚ} (h : 0 ≤ q) : 0 ≤ rhe q := by
  have hf : (0 : ℤ) ≤ ⌊q⌋ := Int.floor_nonneg.mpr h
  rw [rhe]
  split_ifs <;> omega

/-! Characterization of the `get_size` loop. -/

theorem div_pow_succ (x : ℚ) (j : ℕ) : x / 1024 / 1024 ^ j = x / 1024 ^ (j + 1) := by
  rw [div_div, ← pow_succ']

theorem get_size_loop_eq : ∀ (k : ℕ) (b : ℚ) (l : List String) (hk : k < l.length),
    (∀ j < k, 1024 ≤ b / 1024 ^ j) → b / 1024 ^ k < 1024 →
    get_size_loop b l = some (fmt2 (b / 1024 ^ k) ++ l.get ⟨k, hk⟩ ++ "B") := by
  intro k
  induction k with
  | zero =>
    intro b l hk hlow hhi
    match l with
    | u :: us =>
      have hb : b < 1024 := by simpa using hhi
      simp only [get_size_loop, if_pos hb]
      norm_num
  | succ k ih =>
    intro b l hk hlow hhi
    match l with
    | u :: us =>
      have hge : 1024 ≤ b := by simpa using hlow 0 (Nat.succ_pos k)
      have hnot : ¬ b < 1024 := not_lt.mpr hge
      simp only [get_size_loop, if_neg hnot]
      have hk' : k < us.length := by simpa using hk
      have hlow' : ∀ j < k, 1024 ≤ b / 1024 / 1024 ^ j := by
        intro j hj
        rw [div_pow_succ]
        exact hlow (j + 1) (by omega)
      have hhi' : b / 1024 / 1024 ^ k < 1024 := by rw [div_pow_succ]; exact hhi
      rw [ih (b / 1024) us hk' hlow' hhi', div_pow_succ]
      rfl

theorem get_size_loop_none : ∀ (l : List String) (b : ℚ),
    (∀ j < l.length, 1024 ≤ b / 1024 ^ j) → get_size_loop b l = none := by
  intro l
  induction l with
  | nil => intro b _; rfl
  | cons u us ih =>
    intro b h
    have hge : 1024 ≤ b := by simpa using h 0 (by simp)
    simp only [get_size_loop, if_neg (not_lt.mpr hge)]
    apply ih
    intro j hj
    rw [div_pow_succ]
    exact h (j + 1) (by simpa using Nat.succ_lt_succ hj)

theorem scale_bounds {b : ℚ} {k : ℕ} (hlo : 1024 ^ k ≤ b) (hhi : b < 1024 ^ (k + 1)) :
    b / 1024 ^ k < 1024 ∧ ∀ j < k, 1024 ≤ b / 1024 ^ j := by
  constructor
  · rw [div_lt_iff₀ (by positivity)]
    calc b < 1024 ^ (k + 1) := hhi
    _ = 1024 * 1024 ^ k := by ring
  · intro j hj
    rw [le_div_iff₀ (by positivity)]
    calc (1024 : ℚ) * 1024 ^ j = 1024 ^ (j + 1) := by ring
    _ ≤ 1024 ^ k := pow_le_pow_right₀ (by norm_num) (by omega)
    _ ≤ b := hlo

/-- C1: for every non-negative byte count strictly below `1024^6`, `get_size`
returns a string `"<value><unit>B"` whose value part is an integer number of
hundredths `n` rendered with two decimal places (`natRepr (n / 100)`, a dot,
`pad2 (n % 100)` — so reparsing the numeric part yields exactly `n / 100`)
and whose unit is the `k`-th element of the ordered suffix set `units`;
multiplying the reparsed value by `1024^k` reconstructs `b` within the
two-decimal rounding tolerance `1024^k / 200`. -/
theorem get_size_round_trip (b : ℕ) (hb : (b : ℚ) < 1024 ^ 6) :
    ∃ k n : ℕ, k < 6 ∧
      get_size (b : ℚ) = some (natRepr (n / 100) ++ "." ++ pad2 (n % 100) ++ units.getD k "" ++ "B") ∧
      |(n : ℚ) / 100 * 1024 ^ k - (b : ℚ)| ≤ 1024 ^ k / 200 := by
  have hb0 : (0 : ℚ) ≤ (b : ℚ) := Nat.cast_nonneg b
  have hex : ∃ k, k < 6 ∧ (b : ℚ) / 1024 ^ k < 1024 ∧ ∀ j < k, 1024 ≤ (b : ℚ) / 1024 ^ j := by
    by_cases h1 : (b : ℚ) < 1024 ^ 1
    · exact ⟨0, by norm_num, by simpa using h1, fun j hj => absurd hj (Nat.not_lt_zero j)⟩
    by_cases h2 : (b : ℚ) < 1024 ^ 2
    · obtain ⟨c1, c2⟩ := scale_bounds (k := 1) (not_lt.mp (by simpa using h1)) h2
      exact ⟨1, by norm_num, c1, c2⟩
    by_cases h3 : (b : ℚ) < 1024 ^ 3
    · obtain ⟨c1, c2⟩ := scale_bounds (k := 2) (not_lt.mp h2) h3
      exact ⟨2, by norm_num, c1, c2⟩
    by_cases h4 : (b : ℚ) < 1024 ^ 4
    · obtain ⟨c1, c2⟩ := scale_bounds (k := 3) (not_lt.mp h3) h4
      exact ⟨3, by norm_num, c1, c2⟩
    by_cases h5 : (b : ℚ) < 1024 ^ 5
    · obtain ⟨c1, c2⟩ := scale_bounds (k := 4) (not_lt.mp h4) h5
      exact ⟨4, by norm_num, c1, c2⟩
    · obtain ⟨c1, c2⟩ := scale_bounds (k := 5) (not_lt.mp h5) hb
      exact ⟨5, by norm_num, c1, c2⟩
  obtain ⟨k, hk6, hhi, hlow⟩ := hex
  have hkl : k < units.length := by simpa [units] using hk6
  have hloop := get_size_loop_eq k (b : ℚ) units hkl hlow hhi
  set v : ℚ := (b : ℚ) / 1024 ^ k with hv
  have hv0 : 0 ≤ v := by positivity
  have hnn : 0 ≤ rhe (100 * v) := rhe_nonneg (by positivity)
  refine ⟨k, (rhe (100 * v)).toNat, hk6, ?_, ?_⟩
  · rw [get_size, hloop]
    have hfmt : fmt2 v = natRepr ((rhe (100 * v)).toNat / 100) ++ "." ++
        pad2 ((rhe (100 * v)).toNat % 100) := rfl
    rw [hfmt, List.getD_eq_getElem units "" hkl, List.get_eq_getElem]
  · have hcast : (((rhe (100 * v)).toNat : ℕ) : ℚ) = ((rhe (100 * v) : ℤ) : ℚ) := by
      exact_mod_cast congrArg (fun z : ℤ => (z : ℚ)) (Int.toNat_of_nonneg hnn)
    have hb_eq : (b : ℚ) = v * 1024 ^ k := by
      rw [hv]
      field_simp
    rw [hcast, hb_eq]
    have hring : ((rhe (100 * v) : ℤ) : ℚ) / 100 * 1024 ^ k - v * 1024 ^ k =
        (((rhe (100 * v) : ℤ) : ℚ) - 100 * v) * (1024 ^ k / 100) := by ring
    rw [hring, abs_mul, abs_of_pos (show (0 : ℚ) < 1024 ^ k / 100 by positivity)]
    calc |((rhe (100 * v) : ℤ) : ℚ) - 100 * v| * (1024 ^ k / 100)
        ≤ 1 / 2 * (1024 ^ k / 100) :=
          mul_le_mul_of_nonneg_right (abs_rhe_sub (100 * v)) (by positivity)
    _ = 1024 ^ k / 200 := by ring

/-- Witness for C1 at the concrete byte count 1536. -/
theorem get_size_round_trip_witness :
    ((1536 : ℕ) : ℚ) < 1024 ^ 6 ∧
      (∃ k n : ℕ, k < 6 ∧
        get_size ((1536 : ℕ) : ℚ) =
          some (natRepr (n / 100) ++ "." ++ pad2 (n % 100) ++ units.getD k "" ++ "B") ∧
        |(n : ℚ) / 100 * 1024 ^ k - ((1536 : ℕ) : ℚ)| ≤ 1024 ^ k / 200) :=
  ⟨by norm_num, get_size_round_trip 1536 (by norm_num)⟩

/-- C2: the four concrete formatting examples of the spec. -/
theorem get_size_examples :
    get_size ((0 : ℕ) : ℚ) = some "0.00B" ∧ get_size ((1024 : ℕ) : ℚ) = some "1.00KB" ∧
      get_size ((1536 : ℕ) : ℚ) = some "1.50KB" ∧
      get_size ((1024 ^ 3 : ℕ) : ℚ) = some "1.00GB" := by
  refine ⟨?_, ?_, ?_, ?_⟩ <;>
    · norm_num [get_size, get_size_loop, units, fmt2, rhe, pad2]
      decide

/-- C3: for every byte count at or beyond `1024^6` the suffix loop of
`get_size` exhausts all six units without returning, so the function yields
`none` (Python falls off the loop and implicitly returns `None`): there is
no overflow guard and no clamp to the `"P"` scale. -/
theorem get_size_overflow (b : ℕ) (hb : 1024 ^ 6 ≤ b) : get_size (b : ℚ) = none := by
  have hQ : (1024 : ℚ) ^ 6 ≤ (b : ℚ) := by exact_mod_cast hb
  apply get_size_loop_none
  intro j hj
  have hj6 : j < 6 := by simpa [units] using hj
  rw [le_div_iff₀ (by positivity)]
  calc (1024 : ℚ) * 1024 ^ j = 1024 ^ (j + 1) := by ring
  _ ≤ 1024 ^ 6 := pow_le_pow_right₀ (by norm_num) (by omega)
  _ ≤ (b : ℚ) := hQ

/-- Witness for C3 at the concrete byte count `1024^6`. -/
theorem get_size_overflow_witness :
    1024 ^ 6 ≤ (1024 ^ 6 : ℕ) ∧ get_size ((1024 ^ 6 : ℕ) : ℚ) = none :=
  ⟨le_rfl, get_size_overflow (1024 ^ 6) le_rfl⟩

theorem dictSet_fresh {d : List (String × PyVal)} {k : String}
    (h : ∀ kv ∈ d, kv.1 ≠ k) (v : PyVal) : dictSet d k v = d ++ [(k, v)] := by
  rw [dictSet, if_neg]
  simp only [List.any_eq_true, beq_iff_eq, not_exists, not_and]
  exact h

/-- Folding Python dict assignments whose keys are pairwise distinct and
absent from the base dictionary just appends the corresponding pairs. -/
theorem foldl_dictSet_fresh {α : Type} (key : α → String) (val : α → PyVal) :
    ∀ (l : List α) (base : List (String × PyVal)),
      (∀ a ∈ l, ∀ kv ∈ base, kv.1 ≠ key a) → (l.map key).Nodup →
      l.foldl (fun d a => dictSet d (key a) (val a)) base =
        base ++ l.map fun a => (key a, val a) := by
  intro l
  induction l with
  | nil => intro base _ _; simp
  | cons a t ih =>
    intro base hfresh hnd
    simp only [List.foldl_cons]
    rw [dictSet_fresh (fun kv hkv => hfresh a (by simp) kv hkv) (val a)]
    rw [ih (base ++ [(key a, val a)]) ?_ ?_]
    · simp
    · intro x hx kv hkv
      rcases List.mem_append.mp hkv with hbase | hsingle
      · exact hfresh x (by simp [hx]) kv hbase
      · have hkv1 : kv.1 = key a := by
          simp only [List.mem_singleton] at hsingle
          rw [hsingle]
        rw [hkv1]
        have hne : key a ∉ t.map key := by
          simp only [List.map_cons, List.nodup_cons] at hnd
          exact hnd.1
        intro hcontra
        exact hne (hcontra ▸ List.mem_map_of_mem key hx)
    · simp only [List.map_cons, List.nodup_cons] at hnd
      exact hnd.2


/-! Key disjointness and injectivity of the generated dict keys. -/

theorem core_key_ne_base (s : String) :
    "Core " ++ s ++ " Usage" ≠ "Physical Cores" ∧ "Core " ++ s ++ " Usage" ≠ "Total Cores" ∧
      "Core " ++ s ++ " Usage" ≠ "Max Frequency" ∧
      "Core " ++ s ++ " Usage" ≠ "Current Frequency" ∧
      "Core " ++ s ++ " Usage" ≠ "CPU Usage" := by
  refine ⟨?_, ?_, ?_, ?_, ?_⟩ <;>
    · intro h
      have hd := congrArg String.data h
      simp only [String.data_append] at hd
      simp at hd

theorem core_key_inj :
    Function.Injective fun i : ℕ => "Core " ++ natRepr i ++ " Usage" := by
  intro i j h
  apply natRepr_injective
  have hd := congrArg String.data h
  simp only [String.data_append, List.append_assoc] at hd
  have h2 := List.append_cancel_left hd
  exact String.ext (List.append_cancel_right h2)

theorem gpu_key_ne_status (s : String) : "GPU " ++ s ≠ "Status" := by
  intro h
  have hd := congrArg String.data h
  simp only [String.data_append] at hd
  simp at hd

theorem gpu_key_ne_error (s : String) : "GPU " ++ s ≠ "Error" := by
  intro h
  have hd := congrArg String.data h
  simp only [String.data_append] at hd
  simp at hd

theorem gpu_key_inj : Function.Injective fun i : ℕ => "GPU " ++ natRepr i := by
  intro i j h
  apply natRepr_injective
  have hd := congrArg String.data h
  simp only [String.data_append] at hd
  exact String.ext (List.append_cancel_left hd)

theorem device_key_inj : Function.Injective fun s : String => "Device " ++ s := by
  intro a b h
  have hd := congrArg String.data h
  simp only [String.data_append] at hd
  exact String.ext (List.append_cancel_left hd)

/-! Structure of the inspector outputs. -/

theorem get_cpu_info_eq (p : Psutil) :
    get_cpu_info p = cpuBase p ++ (p.cpu_percent_percpu (some 1)).enum.map
      fun ip => ("Core " ++ natRepr ip.1 ++ " Usage", PyVal.str (fmtPercent ip.2)) := by
  rw [get_cpu_info]
  refine foldl_dictSet_fresh (fun ip : ℕ × ℚ => "Core " ++ natRepr ip.1 ++ " Usage")
    (fun ip : ℕ × ℚ => PyVal.str (fmtPercent ip.2)) (p.cpu_percent_percpu (some 1)).enum
    (cpuBase p) ?_ ?_
  · intro a _ kv hkv
    obtain ⟨h1, h2, h3, h4, h5⟩ := core_key_ne_base (natRepr a.1)
    simp only [cpuBase, List.mem_cons, List.mem_singleton] at hkv
    rcases hkv with rfl | rfl | rfl | rfl | rfl | h
    · exact Ne.symm h1
    · exact Ne.symm h2
    · exact Ne.symm h3
    · exact Ne.symm h4
    · exact Ne.symm h5
    · simp at h
  · have hmm : (p.cpu_percent_percpu (some 1)).enum.map
        (fun ip : ℕ × ℚ => "Core " ++ natRepr ip.1 ++ " Usage") =
        ((p.cpu_percent_percpu (some 1)).enum.map Prod.fst).map
          fun i => "Core " ++ natRepr i ++ " Usage" := by
      rw [List.map_map]
      rfl
    rw [hmm, List.enum_map_fst]
    exact (List.nodup_range _).map core_key_inj

/-- C4 counterexample: `cpuSampledAtOneSecond` fails at the provider
`psFix`, whose interval-1 sample is 42 % but whose default-interval
(non-blocking) sample is 7 %: the reported `"CPU Usage"` is 7 %, because
line 39 calls `psutil.cpu_percent()` with no interval argument. -/
theorem cpu_not_sampled_at_one_second : ¬ cpuSampledAtOneSecond := by
  intro h
  have h1 := (h psFix).1
  rw [get_cpu_info_eq] at h1
  have hpc : psFix.cpu_percent_percpu (some 1) = [] := rfl
  rw [hpc] at h1
  simp only [List.enum_nil, List.map_nil, List.append_nil, cpuBase, dictGet] at h1
  simp [psFix] at h1
  simp only [fmtPercent, ratRepr] at h1
  norm_num at h1
  exact absurd h1 (by decide)

theorem get_cpu_info_usage_cell (p : Psutil) :
    dictGet (get_cpu_info p) "CPU Usage" =
      some (.str (fmtPercent (p.cpu_percent none))) := by
  rw [get_cpu_info_eq]
  cases hl : (p.cpu_percent_percpu (some 1)).enum with
  | nil => simp [cpuBase, dictGet]
  | cons a t => simp [cpuBase, dictGet]

theorem get_cpu_info_drop_five (p : Psutil) :
    (get_cpu_info p).drop 5 = (p.cpu_percent_percpu (some 1)).enum.map
      fun ip => ("Core " ++ natRepr ip.1 ++ " Usage", PyVal.str (fmtPercent ip.2)) := by
  rw [get_cpu_info_eq]
  have h5 : (cpuBase p).length = 5 := rfl
  rw [← h5, List.drop_left]

/-- C4 amended: the per-core percentages are each sampled over the fixed
1-second interval (line 43 passes `interval=1`), but the aggregate
`"CPU Usage"` entry comes from `psutil.cpu_percent()` with Python's default
`interval=None` — the non-blocking since-last-call mode — not from a
1-second sample. -/
theorem cpu_sampling_intervals (p : Psutil) :
    dictGet (get_cpu_info p) "CPU Usage" =
      some (.str (fmtPercent (p.cpu_percent none))) ∧
    (get_cpu_info p).drop 5 = (p.cpu_percent_percpu (some 1)).enum.map
      fun ip => ("Core " ++ natRepr ip.1 ++ " Usage", PyVal.str (fmtPercent ip.2)) :=
  ⟨get_cpu_info_usage_cell p, get_cpu_info_drop_five p⟩

/-- C7: the per-core entries of the CPU report are exactly one per element
of the 1-second per-core sample; given that the provider reports one
percentage per logical core and each lies in [0, 100], the report carries
exactly `n` per-core entries (`n` the logical core count) and every
per-core value is an in-range percentage. -/
theorem cpu_percore_count_and_range (p : Psutil) (n : ℕ)
    (hcount : p.cpu_count_logical = some n)
    (hlen : (p.cpu_percent_percpu (some 1)).length = n)
    (hrange : ∀ q ∈ p.cpu_percent_percpu (some 1), 0 ≤ q ∧ q ≤ 100) :
    ((get_cpu_info p).drop 5).length = n ∧
    ∀ kv ∈ (get_cpu_info p).drop 5, ∃ q : ℚ, 0 ≤ q ∧ q ≤ 100 ∧
      kv.2 = PyVal.str (fmtPercent q) := by
  have hdrop := get_cpu_info_drop_five p
  constructor
  · rw [hdrop]
    simp [hlen]
  · rw [hdrop]
    intro kv hkv
    obtain ⟨ip, hip, rfl⟩ := List.mem_map.mp hkv
    have hsnd : ip.2 ∈ p.cpu_percent_percpu (some 1) := by
      have := List.mem_enum_iff_getElem?.mp hip
      exact List.getElem?_mem this
    exact ⟨ip.2, (hrange ip.2 hsnd).1, (hrange ip.2 hsnd).2, rfl⟩

/-- Witness for C7 at the one-core provider `pcpu`. -/
theorem cpu_percore_count_and_range_witness :
    ((get_cpu_info pcpu).drop 5).length = 1 ∧
    ∀ kv ∈ (get_cpu_info pcpu).drop 5, ∃ q : ℚ, 0 ≤ q ∧ q ≤ 100 ∧
      kv.2 = PyVal.str (fmtPercent q) :=
  cpu_percore_count_and_range pcpu 1 rfl rfl (by intro q hq; simp [pcpu] at hq; norm_num [hq])

/-- C8: the `"Memory Usage"` and `"Swap Usage"` cells are the provider's
`percent` fields verbatim, for every provider — in particular for providers
whose size fields are arbitrary and inconsistent with the percent, so the
percentages are never recomputed from `total`/`available`/`used` or
`total`/`free`/`used`. -/
theorem memory_percent_direct (p : Psutil) :
    dictGet (get_memory_info p) "Memory Usage" =
      some (.str (fmtPercent p.virtual_memory.percent)) ∧
    dictGet (get_memory_info p) "Swap Usage" =
      some (.str (fmtPercent p.swap_memory.percent)) := by
  constructor <;> simp [get_memory_info, dictGet]

/-! Structure of the disk report. -/

theorem get_disk_foldl_filter (p : Psutil) :
    ∀ (parts : List DiskPartition) (base : List (String × PyVal)),
      parts.foldl (fun d pt =>
        match p.disk_usage pt.mountpoint with
        | Except.error _ => d
        | Except.ok u => dictSet d ("Device " ++ pt.device) (diskEntry pt u)) base =
      (parts.filter fun pt => usageReadable p pt).foldl
        (fun d pt => dictSet d ("Device " ++ pt.device) (diskVal p pt)) base := by
  intro parts
  induction parts with
  | nil => intro base; rfl
  | cons pt t ih =>
    intro base
    cases hu : p.disk_usage pt.mountpoint with
    | error e =>
      have hr : usageReadable p pt = false := by simp [usageReadable, hu]
      simp only [List.foldl_cons, List.filter_cons, hr, hu]
      exact ih base
    | ok u =>
      have hr : usageReadable p pt = true := by simp [usageReadable, hu]
      have hv : diskVal p pt = diskEntry pt u := by simp [diskVal, hu]
      simp only [List.foldl_cons, List.filter_cons, hr, hu, if_true, hv]
      exact ih _

theorem get_disk_info_eq (p : Psutil)
    (hnd : ((p.disk_partitions.filter fun pt => usageReadable p pt).map
      fun pt => pt.device).Nodup) :
    get_disk_info p = (p.disk_partitions.filter fun pt => usageReadable p pt).map
      fun pt => ("Device " ++ pt.device, diskVal p pt) := by
  have hnd' : ((p.disk_partitions.filter fun pt => usageReadable p pt).map
      fun pt : DiskPartition => "Device " ++ pt.device).Nodup := by
    have hmm : (p.disk_partitions.filter fun pt => usageReadable p pt).map
        (fun pt : DiskPartition => "Device " ++ pt.device) =
        ((p.disk_partitions.filter fun pt => usageReadable p pt).map
          fun pt => pt.device).map fun s => "Device " ++ s := by
      rw [List.map_map]
      rfl
    rw [hmm]
    exact hnd.map device_key_inj
  rw [get_disk_info, get_disk_foldl_filter p p.disk_partitions []]
  exact (foldl_dictSet_fresh (fun pt : DiskPartition => "Device " ++ pt.device)
    (fun pt => diskVal p pt) (p.disk_partitions.filter fun pt => usageReadable p pt) []
    (by intro a ha kv hkv; simp at hkv) hnd').trans (List.nil_append _)

/-- C5 counterexample: `diskClaimC5` fails at the provider `pdup`, which
enumerates two readable partitions (M = 2) that share the device name
`"sda1"`: the Python dict keyed by `f"Device {device}"` merges them, so the
report holds 1 entry, not 2. -/
theorem disk_entry_count_counterexample : ¬ diskClaimC5 := by
  intro h
  have hr : ∀ m u, pdup.disk_usage m = Except.ok u → 0 ≤ u.percent ∧ u.percent ≤ 100 := by
    intro m u hu
    have h2 : usageFix = u := by simpa [pdup] using hu
    rw [← h2]
    norm_num [usageFix]
  have h1 := (h pdup hr).1
  have hL : (get_disk_info pdup).length = 1 := by
    simp [get_disk_info, pdup, dictSet, diskEntry, usageFix, partFix1, partFix2]
  have hR : ((pdup.disk_partitions.filter fun pt => usageReadable pdup pt)).length = 2 := by
    simp [pdup, usageReadable, partFix1, partFix2]
  rw [hL, hR] at h1
  exact absurd h1 (by norm_num)

/-- C5 amended: with the additional hypothesis — implicit in the spec's
data-model invariant that device-keyed groups use unique keys — that the
readable partitions carry pairwise-distinct device names, the disk report
has exactly one entry per readable partition (M of the N enumerated),
unreadable partitions are silently skipped, and every retained entry's
`"Usage"` cell is an in-range percentage whenever the provider's readable
usages are in range.  Without the distinctness hypothesis the dict merges
duplicate device names (see `disk_entry_count_counterexample`). -/
theorem get_disk_info_count_and_range (p : Psutil)
    (hnd : ((p.disk_partitions.filter fun pt => usageReadable p pt).map
      fun pt => pt.device).Nodup)
    (hr : ∀ m u, p.disk_usage m = Except.ok u → 0 ≤ u.percent ∧ u.percent ≤ 100) :
    (get_disk_info p).length =
      (p.disk_partitions.filter fun pt => usageReadable p pt).length ∧
    ∀ kv ∈ get_disk_info p, ∃ q : ℚ, 0 ≤ q ∧ q ≤ 100 ∧
      pyDictGet kv.2 "Usage" = some (.str (fmtPercent q)) := by
  rw [get_disk_info_eq p hnd]
  constructor
  · simp
  · intro kv hkv
    obtain ⟨pt, hpt, rfl⟩ := List.mem_map.mp hkv
    have hread : usageReadable p pt = true := List.of_mem_filter hpt
    obtain ⟨u, hu⟩ : ∃ u, p.disk_usage pt.mountpoint = Except.ok u := by
      rw [usageReadable] at hread
      cases hcase : p.disk_usage pt.mountpoint with
      | ok u => exact ⟨u, rfl⟩
      | error e => rw [hcase] at hread; simp at hread
    refine ⟨u.percent, (hr _ _ hu).1, (hr _ _ hu).2, ?_⟩
    simp [diskVal, hu, diskEntry, pyDictGet, pyItems, dictGet]

/-- Witness for C5 at the single-partition provider `pdisk`. -/
theorem get_disk_info_count_and_range_witness :
    (get_disk_info pdisk).length =
      (pdisk.disk_partitions.filter fun pt => usageReadable pdisk pt).length ∧
    ∀ kv ∈ get_disk_info pdisk, ∃ q : ℚ, 0 ≤ q ∧ q ≤ 100 ∧
      pyDictGet kv.2 "Usage" = some (.str (fmtPercent q)) :=
  get_disk_info_count_and_range pdisk
    (by simp [pdisk, usageReadable, partFix1])
    (by intro m u hu
        have h2 : usageFix = u := by simpa [pdisk] using hu
        rw [← h2]
        norm_num [usageFix])

/-! Structure of the GPU report. -/

theorem try_get_gpu_info_gpus_eq (l : List Gpu) :
    try_get_gpu_info (.gpus l) =
      l.enum.map fun ig => ("GPU " ++ natRepr ig.1, gpuEntry ig.2) := by
  have hnd : (l.enum.map fun ig : ℕ × Gpu => "GPU " ++ natRepr ig.1).Nodup := by
    have hmm : l.enum.map (fun ig : ℕ × Gpu => "GPU " ++ natRepr ig.1) =
        (l.enum.map Prod.fst).map fun i => "GPU " ++ natRepr i := by
      rw [List.map_map]
      rfl
    rw [hmm, List.enum_map_fst]
    exact (List.nodup_range _).map gpu_key_inj
  simp only [try_get_gpu_info]
  exact (foldl_dictSet_fresh (fun ig : ℕ × Gpu => "GPU " ++ natRepr ig.1)
    (fun ig : ℕ × Gpu => gpuEntry ig.2) l.enum []
    (by intro a ha kv hkv; simp at hkv) hnd).trans (List.nil_append _)

/-- C6: the three outcomes of `try_get_gpu_info` are pairwise
distinguishable; the absent facility yields exactly the one-entry
`"Status"` result, a raising facility yields exactly the one-entry
`"Error"` result carrying the failure description, and a succeeding
facility with G GPUs yields exactly G entries whose `"Load"` cell is an
in-range percentage whenever each reported load fraction lies in [0, 1]. -/
theorem gpu_three_outcomes :
    try_get_gpu_info .absent = [("Status", .str gpuUnavailableMsg)] ∧
    (∀ e, try_get_gpu_info (.failure e) =
      [("Error", .str ("Failed to get GPU information: " ++ e))]) ∧
    (∀ e l, try_get_gpu_info .absent ≠ try_get_gpu_info (.failure e) ∧
      try_get_gpu_info .absent ≠ try_get_gpu_info (.gpus l) ∧
      try_get_gpu_info (.failure e) ≠ try_get_gpu_info (.gpus l)) ∧
    ∀ l : List Gpu, (∀ g ∈ l, 0 ≤ g.load ∧ g.load ≤ 1) →
      (try_get_gpu_info (.gpus l)).length = l.length ∧
      ∀ kv ∈ try_get_gpu_info (.gpus l), ∃ q : ℚ, 0 ≤ q ∧ q ≤ 100 ∧
        pyDictGet kv.2 "Load" = some (.str (fmtPercent q)) := by
  refine ⟨rfl, fun e => rfl, ?_, ?_⟩
  · intro e l
    refine ⟨?_, ?_, ?_⟩
    · intro h
      simp only [try_get_gpu_info, List.cons.injEq, Prod.mk.injEq] at h
      exact absurd h.1.1 (by decide)
    · rw [try_get_gpu_info_gpus_eq]
      intro h
      cases l with
      | nil => simp [try_get_gpu_info] at h
      | cons g t =>
        have h1 := congrArg (fun x : List (String × PyVal) => (x.map Prod.fst).head?) h
        simp [try_get_gpu_info, List.enum_cons] at h1
        exact gpu_key_ne_status (natRepr 0) h1.symm
    · rw [try_get_gpu_info_gpus_eq]
      intro h
      cases l with
      | nil => simp [try_get_gpu_info] at h
      | cons g t =>
        have h1 := congrArg (fun x : List (String × PyVal) => (x.map Prod.fst).head?) h
        simp [try_get_gpu_info, List.enum_cons] at h1
        exact gpu_key_ne_error (natRepr 0) h1.symm
  · intro l hl
    rw [try_get_gpu_info_gpus_eq]
    constructor
    · simp
    · intro kv hkv
      obtain ⟨ig, hig, rfl⟩ := List.mem_map.mp hkv
      have hmem : ig.2 ∈ l := List.getElem?_mem (List.mem_enum_iff_getElem?.mp hig)
      obtain ⟨h0, h1⟩ := hl ig.2 hmem
      refine ⟨ig.2.load * 100, by positivity, by nlinarith, ?_⟩
      simp [gpuEntry, pyDictGet, pyItems, dictGet]

/-- Witness for C6's success outcome at the one-GPU facility. -/
theorem gpu_three_outcomes_witness :
    (try_get_gpu_info (.gpus [gpuFix])).length = [gpuFix].length ∧
    ∀ kv ∈ try_get_gpu_info (.gpus [gpuFix]), ∃ q : ℚ, 0 ≤ q ∧ q ≤ 100 ∧
      pyDictGet kv.2 "Load" = some (.str (fmtPercent q)) :=
  gpu_three_outcomes.2.2.2 [gpuFix]
    (by intro g hg
        simp only [List.mem_singleton] at hg
        rw [hg]
        norm_num [gpuFix])

/-- C10: every key of a successful GPU result has the form `"GPU <i>"` for
an index `i` below the GPU count — so a success is never a single-entry
mapping keyed `"Status"` or `"Error"` — and the renderer's line-156
sentinel test holds exactly for the absent and failure outcomes. -/
theorem gpu_keys_and_sentinel_classification :
    (∀ l : List Gpu, ∀ kv ∈ try_get_gpu_info (.gpus l),
      ∃ i : ℕ, i < l.length ∧ kv.1 = "GPU " ++ natRepr i) ∧
    ∀ gf : GpuFacility, gpuSentinel (try_get_gpu_info gf) = true ↔
      gf = .absent ∨ ∃ e, gf = .failure e := by
  constructor
  · intro l kv hkv
    rw [try_get_gpu_info_gpus_eq] at hkv
    obtain ⟨ig, hig, rfl⟩ := List.mem_map.mp hkv
    have h2 := List.mem_enum_iff_getElem?.mp hig
    have hlt : ig.1 < l.length := by
      by_contra hge
      rw [List.getElem?_eq_none (by omega)] at h2
      exact Option.noConfusion h2
    exact ⟨ig.1, hlt, rfl⟩
  · intro gf
    cases gf with
    | absent =>
      refine ⟨fun _ => Or.inl rfl, fun _ => ?_⟩
      rfl
    | failure e =>
      refine ⟨fun _ => Or.inr ⟨e, rfl⟩, fun _ => ?_⟩
      rfl
    | gpus l =>
      constructor
      · intro hsent
        exfalso
        rw [try_get_gpu_info_gpus_eq, gpuSentinel] at hsent
        simp only [Bool.and_eq_true, Bool.or_eq_true, List.any_eq_true] at hsent
        obtain ⟨-, hany⟩ := hsent
        rcases hany with ⟨kv, hkv, hb⟩ | ⟨kv, hkv, hb⟩ <;>
          obtain ⟨ig, hig, rfl⟩ := List.mem_map.mp hkv <;>
          rw [beq_iff_eq] at hb
        · exact gpu_key_ne_status _ hb
        · exact gpu_key_ne_error _ hb
      · intro hor
        rcases hor with h | ⟨e, h⟩ <;> exact GpuFacility.noConfusion h

/-- Witness for C10's key-shape part at the one-GPU facility. -/
theorem gpu_keys_and_sentinel_classification_witness :
    ∃ i : ℕ, i < [gpuFix].length ∧
      ("GPU " ++ natRepr 0, gpuEntry gpuFix).1 = "GPU " ++ natRepr i :=
  gpu_keys_and_sentinel_classification.1 [gpuFix] ("GPU " ++ natRepr 0, gpuEntry gpuFix)
    (by rw [try_get_gpu_info_gpus_eq]
        simp [List.enum_cons])

/-! Renderer theorems. -/

/-- C9 amended: every run prints the title and generation timestamp first,
then the five sections in the fixed order System, CPU, Memory, Disk, GPU,
the flat sections as one two-column (Property, Value) table each and the
disk section as one key-prefixed sub-table per device; the GPU section is
rendered as key-prefixed per-device sub-tables except when the result is
the single-entry `"Status"`/`"Error"` sentinel, in which case the section
degrades to that single message line instead of a table. -/
theorem mainOut_sections (pl : PlatformInfo) (ps : Psutil) (gf : GpuFacility) (now : String) :
    mainOut pl ps gf now =
      titleLines now ++ sectionLines "System" (get_system_info pl) ++
      sectionLines "CPU" (get_cpu_info ps) ++
      sectionLines "Memory" (get_memory_info ps) ++
      [Out.line "\n--- Disk Information ---"] ++ subTables (get_disk_info ps) ++
      [Out.line "\n--- GPU Information ---"] ++
      (if gpuSentinel (try_get_gpu_info gf) then
        [Out.line (printVal (dictGet (try_get_gpu_info gf)
          (if (try_get_gpu_info gf).any fun kv => kv.1 == "Status" then "Status"
           else "Error")))]
       else subTables (try_get_gpu_info gf)) := rfl

/-- C9 counterexample: the claim as stated requires the GPU section of every
run to be rendered as per-device sub-tables, but a run whose GPU facility is
absent prints the single unavailability message line there, no table:
`rendererClaimC9` fails at `platFix`/`psFix` with the absent facility. -/
theorem renderer_claim_fails : ¬ rendererClaimC9 := by
  intro h
  have h1 := h platFix psFix .absent ""
  have hlen := congrArg List.length h1
  have hdisk : get_disk_info psFix = [] := rfl
  simp [mainOut, titleLines, sectionLines, subTables, try_get_gpu_info,
    gpuSentinel, hdisk, printVal, dictGet, tableOf] at hlen
